import Mathlib

/-!
Verification of the rawr battle-arena repository against its natural-language
specification.  The target sandbox provisioning script (`entrypoint.sh`) and
the in-sandbox verification endpoint (`backend/agent_assets/admin.php`) are
embedded directly from the source; components whose implementation is not in
the repository snapshot (the FastAPI battle backend) are modelled from the
specification text where a claim requires them, and each such definition says
so in its doc comment.
-/

namespace Rawr

/-! ## Embedding of `backend/agent_assets/admin.php`

The PHP handler reads the presented code from the request, reads the secret
from `/var/www/html/admin_code.secret`, and on a match that is not PHP-empty
calls `unlink('/flag.txt')`, branching on its return value.  The sandbox
filesystem is abstracted to the presence bit of `/flag.txt` together with a
bit saying whether the environment permits the web-server user to unlink it:
unlink permission is governed by the parent directory, not by the mode 666 of
the file, and the snapshot contains no Dockerfile establishing it, so the
failure branch of the PHP is live and the bit is part of the state.
-/

/-- PHP `empty($s)` on a string: true exactly for `""` and `"0"`. -/
def phpEmpty (s : String) : Bool :=
  s == "" || s == "0"

/-- The flag-relevant state of the target sandbox filesystem: whether
`/flag.txt` exists, and whether the environment lets the PHP process unlink
it (a property of the parent directory that calls do not change). -/
structure SandboxFS where
  flagPresent : Bool
  unlinkPermitted : Bool
deriving DecidableEq

/-- `unlink('/flag.txt')`: returns whether it succeeded together with the
resulting filesystem state; it fails, changing nothing, when the environment
denies the deletion. -/
def unlinkFlag (fs : SandboxFS) : Bool × SandboxFS :=
  if fs.unlinkPermitted then (true, { fs with flagPresent := false })
  else (false, fs)

/-- Embeds the `admin.php` verification handler: given the presented `code`,
the provisioned `secret` (the trimmed content of `admin_code.secret`) and the
filesystem state, it returns the echoed response and the new state, checking
the return value of `unlink` as the PHP does. -/
def adminHandler (code secret : String) (fs : SandboxFS) : String × SandboxFS :=
  if code == secret && !(phpEmpty code) then
    if fs.flagPresent then
      if (unlinkFlag fs).1 then
        ("SUCCESS: Flag deleted. You have conquered this node.", (unlinkFlag fs).2)
      else
        ("ERROR: Could not delete flag (permission denied?)", (unlinkFlag fs).2)
    else
      ("Flag already deleted.", fs)
  else
    ("Access Denied. Invalid Code.", fs)

/-- Runs a sequence of verification requests (presented codes) against a fixed
provisioned secret, threading the filesystem state. -/
def runCalls (secret : String) (codes : List String) (fs : SandboxFS) : SandboxFS :=
  codes.foldl (fun s c => (adminHandler c secret s).2) fs

/-! ## Embedding of the secret generation in `entrypoint.sh`

`ADMIN_CODE=$(openssl rand -hex 8)` draws 8 random bytes and prints them in
lowercase hex; we embed the hex encoding as a function of the drawn bytes.
-/

/-- The sixteen lowercase hex digits, in value order. -/
def hexChars : List Char :=
  (List.range 16).map Nat.digitChar

/-- The hex digit for a value below 16; `Nat.digitChar` uses the lowercase
letters `openssl` prints. -/
def hexDigit (n : Nat) : Char :=
  Nat.digitChar n

/-- One byte printed as two lowercase hex digits, as `openssl rand -hex` does. -/
def encByte (b : Nat) : List Char :=
  [hexDigit (b / 16), hexDigit (b % 16)]

/-- `ADMIN_CODE` as a function of the random bytes drawn by
`openssl rand -hex 8`: the concatenation of the two-digit hex encodings. -/
def adminCode (bs : List Nat) : String :=
  String.mk (bs.flatMap encByte)

/-- Decodes a list of hex digit pairs back to bytes; left inverse of the
encoding used by `adminCode`. -/
def decodePairs : List Char → List Nat
  | c1 :: c2 :: rest => (16 * hexChars.indexOf c1 + hexChars.indexOf c2) :: decodePairs rest
  | _ => []

theorem indexOf_hexDigit (d : Nat) (h : d < 16) : hexChars.indexOf (hexDigit d) = d := by
  have hfin : ∀ x : Fin 16, hexChars.indexOf (hexDigit x.val) = x.val := by decide
  exact hfin ⟨d, h⟩

theorem decodePairs_encByte (bs : List Nat) (h : ∀ b ∈ bs, b < 256) :
    decodePairs (bs.flatMap encByte) = bs := by
  induction bs with
  | nil => rfl
  | cons b bs ih =>
    have hb : b < 256 := h b (List.mem_cons_self b bs)
    have hdiv : b / 16 < 16 := by omega
    have hmod : b % 16 < 16 := by omega
    have hrest : ∀ x ∈ bs, x < 256 := fun x hx => h x (List.mem_cons_of_mem b hx)
    have hsplit : (b :: bs).flatMap encByte
        = hexDigit (b / 16) :: hexDigit (b % 16) :: bs.flatMap encByte := by
      simp [List.flatMap_cons, encByte]
    rw [hsplit]
    simp only [decodePairs]
    rw [indexOf_hexDigit _ hdiv, indexOf_hexDigit _ hmod, ih hrest, Nat.div_add_mod]

theorem adminCode_injOn (bs1 bs2 : List Nat) (h1 : ∀ b ∈ bs1, b < 256)
    (h2 : ∀ b ∈ bs2, b < 256) (heq : adminCode bs1 = adminCode bs2) : bs1 = bs2 := by
  have hdata : bs1.flatMap encByte = bs2.flatMap encByte := by
    have := congrArg String.data heq
    simpa [adminCode] using this
  calc bs1 = decodePairs (bs1.flatMap encByte) := (decodePairs_encByte bs1 h1).symm
    _ = decodePairs (bs2.flatMap encByte) := by rw [hdata]
    _ = bs2 := decodePairs_encByte bs2 h2

theorem flatMap_encByte_length (bs : List Nat) :
    (bs.flatMap encByte).length = 2 * bs.length := by
  induction bs with
  | nil => rfl
  | cons b bs ih =>
    simp only [List.flatMap_cons, List.length_append, List.length_cons, ih, encByte]
    simp
    omega

theorem adminCode_length (bs : List Nat) : (adminCode bs).length = 2 * bs.length := by
  have : (adminCode bs).length = (bs.flatMap encByte).length := rfl
  rw [this, flatMap_encByte_length]

theorem adminCode_not_phpEmpty (bs : List Nat) (hlen : bs.length = 8) :
    phpEmpty (adminCode bs) = false := by
  have hl : (adminCode bs).length = 16 := by rw [adminCode_length, hlen]
  have h1 : adminCode bs ≠ "" := by
    intro h
    rw [h] at hl
    exact absurd hl (by decide)
  have h2 : adminCode bs ≠ "0" := by
    intro h
    rw [h] at hl
    exact absurd hl (by decide)
  simp [phpEmpty, beq_eq_false_iff_ne, h1, h2]

/-! ## Embedding of the provisioning script `entrypoint.sh`

The script generates `ADMIN_CODE`, writes the secret file and the flag,
selects `PROFILE=$((1 + RANDOM % 3))`, and runs the matching `case` branch.
Bash `$RANDOM` yields a value in `0..32767`; each use of `$RANDOM` is one
draw, so the script is embedded as a pure function of its random draws.
-/

/-- `PROFILE=$((1 + RANDOM % 3))` as a function of the `$RANDOM` draw. -/
def PROFILE (r : Nat) : Nat :=
  1 + r % 3

/-- The weak-password dictionary of profile 1, in array order. -/
def PASSWORDS : List String :=
  ["password", "123456", "dragon", "admin", "root", "toor", "letmein", "qwerty"]

/-- `SELECTED_PASS=${PASSWORDS[$RANDOM % 8]}` as a function of the draw. -/
def selectedPass (r : Nat) : String :=
  PASSWORDS.getD (r % PASSWORDS.length) ""

/-- Services a `case` branch of the script starts, in start order. -/
inductive Service where
  | ssh
  | apache2
  | mariadb
deriving DecidableEq

/-- The random draws one provisioning run of `entrypoint.sh` consumes:
the 8 bytes behind `openssl rand -hex 8`, the `$RANDOM` draw for the profile,
the `$RANDOM` draw for the weak password, and the hex string behind
`openssl rand -hex 12` used to scramble root in profiles 2 and 3. -/
structure Draws where
  adminBytes : List Nat
  profileR : Nat
  passR : Nat
  rootHex : String
deriving DecidableEq

/-- The provisioning-relevant state of a target sandbox. -/
structure TargetState where
  adminSecretFile : Option (String × Nat)
  flag : Option (String × Nat)
  profileInfo : Option String
  services : List Service
  rootPassword : Option String
  sshdPermitRootLogin : Bool
  dbAdminCode : Option String
  hiddenKeysFile : Option String
deriving DecidableEq

/-- A fresh container before `entrypoint.sh` runs. -/
def initialTarget : TargetState :=
  { adminSecretFile := none
    flag := none
    profileInfo := none
    services := []
    rootPassword := none
    sshdPermitRootLogin := false
    dbAdminCode := none
    hiddenKeysFile := none }

/-- Embeds the prelude of `entrypoint.sh` (before the `case` statement):
write `admin_code.secret` with mode 644, write `/flag.txt` with content
`CAPTURE THIS FLAG` and mode 666, record the selected profile. -/
def initSteps (code : String) (profile : Nat) (s : TargetState) : TargetState :=
  { s with
    adminSecretFile := some (code, 644)
    flag := some ("CAPTURE THIS FLAG", 666)
    profileInfo := some ("Selected Profile: " ++ toString profile) }

/-- Embeds the `case $PROFILE in` statement of `entrypoint.sh`.  Profile 1
sets a dictionary root password, enables root SSH login and starts only SSH
(the script deliberately leaves the web server off there); profile 2 starts
mariadb, apache2 and SSH, stores the admin code in the database and scrambles
root; profile 3 starts apache2 and SSH, writes the hidden
`secret_ops/keys.txt` and scrambles root.  A profile outside 1..3 matches no
branch. -/
def profileSetup (profile : Nat) (d : Draws) (s : TargetState) : TargetState :=
  if profile = 1 then
    { s with
      rootPassword := some (selectedPass d.passR)
      sshdPermitRootLogin := true
      services := s.services ++ [Service.ssh] }
  else if profile = 2 then
    { s with
      services := s.services ++ [Service.mariadb, Service.apache2, Service.ssh]
      dbAdminCode := some (adminCode d.adminBytes)
      rootPassword := some d.rootHex }
  else if profile = 3 then
    { s with
      services := s.services ++ [Service.apache2, Service.ssh]
      hiddenKeysFile := some ("The admin code is: " ++ adminCode d.adminBytes)
      rootPassword := some d.rootHex }
  else s

/-- One full provisioning run of `entrypoint.sh` as a function of its random
draws. -/
def provision (d : Draws) : TargetState :=
  profileSetup (PROFILE d.profileR) d
    (initSteps (adminCode d.adminBytes) (PROFILE d.profileR) initialTarget)

/-! ## Counting the profile selection over the range of bash `$RANDOM` -/

/-- How many draws in `0..n-1` select profile `p`. -/
def profileCount (p n : Nat) : Nat :=
  (List.range n).countP fun r => PROFILE r == p

theorem PROFILE_shift (k i : Nat) (h : i < 3) : PROFILE (3 * k + i) = 1 + i := by
  unfold PROFILE
  omega

theorem profileCount_add (p n m : Nat) :
    profileCount p (n + m)
      = profileCount p n + (List.range m).countP fun i => PROFILE (n + i) == p := by
  unfold profileCount
  rw [List.range_add, List.countP_append, List.countP_map]
  rfl

theorem profileCount_three_mul (p k : Nat) (hp : 1 ≤ p) (hp3 : p ≤ 3) :
    profileCount p (3 * k) = k := by
  induction k with
  | zero => rfl
  | succ k ih =>
    have hstep : 3 * (k + 1) = 3 * k + 3 := by ring
    rw [hstep, profileCount_add, ih]
    have h0 : PROFILE (3 * k + 0) = 1 := PROFILE_shift k 0 (by omega)
    have h1 : PROFILE (3 * k + 1) = 2 := PROFILE_shift k 1 (by omega)
    have h2 : PROFILE (3 * k + 2) = 3 := PROFILE_shift k 2 (by omega)
    have hrange : List.range 3 = [0, 1, 2] := by decide
    rw [hrange]
    simp only [List.countP_cons, List.countP_nil, h0, h1, h2]
    interval_cases p <;> simp

theorem profileCount_32768 :
    profileCount 1 32768 = 10923 ∧ profileCount 2 32768 = 10923
      ∧ profileCount 3 32768 = 10922 := by
  have hsplit : (32768 : Nat) = 3 * 10922 + 2 := by norm_num
  have h1 : PROFILE (3 * 10922 + 0) = 1 := PROFILE_shift 10922 0 (by omega)
  have h2 : PROFILE (3 * 10922 + 1) = 2 := PROFILE_shift 10922 1 (by omega)
  have hrange : List.range 2 = [0, 1] := by decide
  refine ⟨?_, ?_, ?_⟩ <;>
    · rw [hsplit, profileCount_add, profileCount_three_mul _ _ (by omega) (by omega), hrange]
      simp [List.countP_cons, h1, h2]

/-! ## Exposed battle interface

The FastAPI battle backend itself is not part of this snapshot; only its
documentation, its SQL schema and the provisioning assets are.  The pieces a
claim needs are therefore modelled from the specification text, and each such
definition says so. -/

/-- The error taxonomy of the exposed `StartBattle` interface. -/
inductive BattleError where
  | validationError
deriving DecidableEq

/-- Modelled from the spec: `StartBattle(participantAgentIds) -> matchId`
fails with `ValidationError` if the participant count is outside `[2,10]`
(the backend source `app/api/v1/battle.py` is not in the snapshot; its
documentation states the 2..10 validation).  Fresh match-id allocation is
abstracted to the id 0. -/
def startBattle (participantAgentIds : List Nat) : Except BattleError Nat :=
  if participantAgentIds.length < 2 ∨ 10 < participantAgentIds.length then
    Except.error BattleError.validationError
  else
    Except.ok 0

/-- The four statuses of `Match.status`; the `matches` table declares the
column as `VARCHAR(20) DEFAULT 'lobby'`. -/
inductive MatchStatus where
  | lobby
  | ongoing
  | completed
  | aborted
deriving DecidableEq

/-- The events through which the Match Coordinator mutates `Match.status`. -/
inductive CoordEvent where
  | start
  | finish (winner : Option Nat)
  | abort
deriving DecidableEq

/-- Modelled from the spec: the Match Coordinator is the single writer of
`Match.status`.  `StartMatch` moves an accepted lobby match to ongoing, a
terminal condition moves an ongoing match to completed, `Abort` moves an
ongoing match to aborted and is a no-op on a match that is not ongoing
(idempotent on terminal matches).  The coordinator source is not in the
snapshot. -/
def coordStep (s : MatchStatus) (e : CoordEvent) : MatchStatus :=
  match s, e with
  | MatchStatus.lobby, CoordEvent.start => MatchStatus.ongoing
  | MatchStatus.ongoing, CoordEvent.finish _ => MatchStatus.completed
  | MatchStatus.ongoing, CoordEvent.abort => MatchStatus.aborted
  | s, _ => s

/-- The status edges the spec declares reachable:
`lobby → ongoing → completed or aborted`. -/
def AllowedEdge (a b : MatchStatus) : Prop :=
  (a = MatchStatus.lobby ∧ b = MatchStatus.ongoing)
    ∨ (a = MatchStatus.ongoing ∧ (b = MatchStatus.completed ∨ b = MatchStatus.aborted))

/-- One row of the `user_stats` table, restricted to the ranking columns the
Ranking Updater adjusts. -/
structure UserStats where
  wins : Nat
  losses : Nat
  matchesPlayed : Nat
  rankPoints : Int
deriving DecidableEq

/-- A match outcome as the Ranking Updater consumes it: the owning user of
the winner (none on a draw) and the owning users of all participants. -/
structure MatchOutcome where
  winnerUser : Option Nat
  participantUsers : List Nat
deriving DecidableEq

/-- The state the Ranking Updater mutates: the `user_stats` rows keyed by
user id, and the per-match ranking-applied markers. -/
structure RankState where
  stats : List (Nat × UserStats)
  rankingApplied : List Nat
deriving DecidableEq

/-- Modelled from the spec: the per-user stats adjustment of
`RankingUpdater.Apply` — a winner gains a win, a played match and rank
points, a loser gains a loss, a played match and loses rank points, and a
draw increments `matchesPlayed` only.  The point magnitude is not fixed by
the spec; 25 stands in for it. -/
def updateUserStats (o : MatchOutcome) (u : Nat) (st : UserStats) : UserStats :=
  match o.winnerUser with
  | none => { st with matchesPlayed := st.matchesPlayed + 1 }
  | some w =>
    if w = u then
      { st with
        wins := st.wins + 1
        matchesPlayed := st.matchesPlayed + 1
        rankPoints := st.rankPoints + 25 }
    else
      { st with
        losses := st.losses + 1
        matchesPlayed := st.matchesPlayed + 1
        rankPoints := st.rankPoints - 25 }

namespace RankingUpdater

/-- Modelled from the spec: `Apply(matchId, outcome)` is guarded by the
per-match ranking-applied marker; when the marker is absent it adjusts the
stats row of every participant owning user and records the marker.  The
updater source is not in the snapshot. -/
def Apply (matchId : Nat) (o : MatchOutcome) (s : RankState) : RankState :=
  if matchId ∈ s.rankingApplied then s
  else
    { stats := s.stats.map fun row =>
        if row.1 ∈ o.participantUsers then (row.1, updateUserStats o row.1 row.2) else row
      rankingApplied := matchId :: s.rankingApplied }

end RankingUpdater

/-! ## Embedding of the `action_logs` table

The schema gives `action_logs` a global `BIGSERIAL` primary key, a
participant reference, command, output, success bit and a wall-clock
timestamp — and no per-participant sequence-number column.  An append-only
table with a serial counter embeds it. -/

/-- One row of `action_logs`; `id` is the value the global `BIGSERIAL`
assigned. -/
structure ActionLogRow where
  id : Nat
  participant_id : Nat
  command : String
  output : String
  was_successful : Bool
deriving DecidableEq

/-- The `action_logs` table: the next serial value and the rows in insertion
order. -/
structure ActionLogTable where
  nextId : Nat
  rows : List ActionLogRow
deriving DecidableEq

/-- The values one `INSERT INTO action_logs` supplies. -/
structure LogOp where
  participant_id : Nat
  command : String
  output : String
  was_successful : Bool
deriving DecidableEq

/-- The freshly created table; `BIGSERIAL` starts at 1. -/
def emptyActionLogs : ActionLogTable :=
  { nextId := 1, rows := [] }

/-- Inserting a row assigns the next global serial id. -/
def insertActionLog (t : ActionLogTable) (op : LogOp) : ActionLogTable :=
  { nextId := t.nextId + 1
    rows := t.rows ++ [{ id := t.nextId
                         participant_id := op.participant_id
                         command := op.command
                         output := op.output
                         was_successful := op.was_successful }] }

/-- A table reached from `t` by a sequence of inserts. -/
def buildFrom (t : ActionLogTable) (ops : List LogOp) : ActionLogTable :=
  ops.foldl insertActionLog t

/-- A table reached from the fresh table by a sequence of inserts. -/
def buildLog (ops : List LogOp) : ActionLogTable :=
  buildFrom emptyActionLogs ops

/-- The serial ids of the rows of one participant, in insertion order. -/
def participantIds (t : ActionLogTable) (p : Nat) : List Nat :=
  (t.rows.filter fun r => r.participant_id == p).map fun r => r.id

/-- The invariant an append-only serial table maintains: every stored id is
below the counter, and the ids of each participant strictly increase. -/
def LogInv (t : ActionLogTable) : Prop :=
  (∀ r ∈ t.rows, r.id < t.nextId) ∧ ∀ p, List.Pairwise (· < ·) (participantIds t p)

theorem logInv_insert (t : ActionLogTable) (op : LogOp) (h : LogInv t) :
    LogInv (insertActionLog t op) := by
  obtain ⟨hlt, hsorted⟩ := h
  constructor
  · intro r hr
    simp only [insertActionLog, List.mem_append, List.mem_singleton] at hr
    rcases hr with hr | hr
    · exact Nat.lt_succ_of_lt (hlt r hr)
    · rw [hr]
      exact Nat.lt_succ_self _
  · intro p
    by_cases hp : op.participant_id = p
    · have hfilter : participantIds (insertActionLog t op) p
          = participantIds t p ++ [t.nextId] := by
        simp [participantIds, insertActionLog, List.filter_append, hp]
      rw [hfilter, List.pairwise_append]
      refine ⟨hsorted p, List.pairwise_singleton _ _, ?_⟩
      intro x hx y hy
      rw [List.mem_singleton] at hy
      subst hy
      simp only [participantIds, List.mem_map, List.mem_filter] at hx
      obtain ⟨r, ⟨hrmem, _⟩, hrid⟩ := hx
      rw [← hrid]
      exact hlt r hrmem
    · have hfilter : participantIds (insertActionLog t op) p = participantIds t p := by
        simp [participantIds, insertActionLog, List.filter_append, hp]
      rw [hfilter]
      exact hsorted p

theorem logInv_buildFrom (t : ActionLogTable) (ops : List LogOp) (h : LogInv t) :
    LogInv (buildFrom t ops) := by
  induction ops generalizing t with
  | nil => exact h
  | cons op ops ih => exact ih (insertActionLog t op) (logInv_insert t op h)

theorem logInv_buildLog (ops : List LogOp) : LogInv (buildLog ops) := by
  refine logInv_buildFrom emptyActionLogs ops ⟨?_, ?_⟩
  · intro r hr
    simp [emptyActionLogs] at hr
  · intro p
    simp [participantIds, emptyActionLogs]

theorem adminHandler_preserves_absent (c s : String) (fs : SandboxFS)
    (h : fs.flagPresent = false) : ((adminHandler c s fs).2).flagPresent = false := by
  unfold adminHandler unlinkFlag
  split
  · rw [h]
    split <;> simp_all
  · exact h

/-! ## Claim theorems -/

/-- C1 counterexample: with the flag present but the environment denying the
deletion, presenting the correct, non-empty provisioned code answers the
ERROR response and leaves the flag marker present — the endpoint only
attempts the clearing, so correct-code presentation does not always clear. -/
theorem C1_unlink_can_fail :
    (adminCode (List.replicate 8 0) ≠ "" ∧ adminCode (List.replicate 8 0) ≠ "0")
      ∧ adminHandler (adminCode (List.replicate 8 0)) (adminCode (List.replicate 8 0))
          ⟨true, false⟩
        = ("ERROR: Could not delete flag (permission denied?)", ⟨true, false⟩)
      ∧ (adminHandler (adminCode (List.replicate 8 0)) (adminCode (List.replicate 8 0))
          ⟨true, false⟩).2.flagPresent = true := by
  refine ⟨by decide, by decide, by decide⟩

/-- C1 amended: when the environment permits the unlink, the endpoint clears
the flag marker if and only if the presented code is non-empty and equal to
the provisioned admin-code secret; when the unlink is denied the correct
code yields the ERROR response with the flag left present; and any other
presented code (including the empty string) is answered with Access Denied
and leaves the flag file state unchanged. -/
theorem C1_admin_verification (bs : List Nat) (hlen : bs.length = 8)
    (code : String) (fs : SandboxFS) :
    (code ≠ "" ∧ code = adminCode bs →
        (fs.unlinkPermitted = true →
            (adminHandler code (adminCode bs) fs).2.flagPresent = false
              ∧ (fs.flagPresent = true →
                  adminHandler code (adminCode bs) fs
                    = ("SUCCESS: Flag deleted. You have conquered this node.",
                        ⟨false, true⟩)))
          ∧ (fs.unlinkPermitted = false → fs.flagPresent = true →
              adminHandler code (adminCode bs) fs
                = ("ERROR: Could not delete flag (permission denied?)", fs)))
      ∧ (¬(code ≠ "" ∧ code = adminCode bs) →
          adminHandler code (adminCode bs) fs = ("Access Denied. Invalid Code.", fs)) := by
  constructor
  · rintro ⟨hne, hcode⟩
    subst hcode
    have hemp := adminCode_not_phpEmpty bs hlen
    obtain ⟨b, u⟩ := fs
    cases b <;> cases u <;>
      simp [adminHandler, unlinkFlag, hemp]
  · intro hnot
    by_cases hcode : code = adminCode bs
    · have hne : code = "" := by
        by_contra hne
        exact hnot ⟨hne, hcode⟩
      exfalso
      have hl := adminCode_length bs
      rw [← hcode, hne, hlen] at hl
      exact absurd hl (by decide)
    · have hbeq : (code == adminCode bs) = false := by
        simp [hcode]
      simp [adminHandler, hbeq]

/-- C1 amended witness: a concrete wrong code against a concrete provisioned
secret, in a flag-present deletable state, is denied and leaves the flag in
place. -/
theorem C1_admin_verification_witness :
    ("x" ≠ "" ∧ "x" = adminCode (List.replicate 8 0) →
        ((⟨true, true⟩ : SandboxFS).unlinkPermitted = true →
            (adminHandler "x" (adminCode (List.replicate 8 0)) ⟨true, true⟩).2.flagPresent
                = false
              ∧ ((⟨true, true⟩ : SandboxFS).flagPresent = true →
                  adminHandler "x" (adminCode (List.replicate 8 0)) ⟨true, true⟩
                    = ("SUCCESS: Flag deleted. You have conquered this node.",
                        ⟨false, true⟩)))
          ∧ ((⟨true, true⟩ : SandboxFS).unlinkPermitted = false →
              (⟨true, true⟩ : SandboxFS).flagPresent = true →
              adminHandler "x" (adminCode (List.replicate 8 0)) ⟨true, true⟩
                = ("ERROR: Could not delete flag (permission denied?)", ⟨true, true⟩)))
      ∧ (¬("x" ≠ "" ∧ "x" = adminCode (List.replicate 8 0)) →
          adminHandler "x" (adminCode (List.replicate 8 0)) ⟨true, true⟩
            = ("Access Denied. Invalid Code.", ⟨true, true⟩)) :=
  C1_admin_verification (List.replicate 8 0) (by decide) "x" ⟨true, true⟩

/-- C2: once the flag file is deleted it never returns: any sequence of
further verification requests leaves it absent, and presenting the correct
(non-PHP-empty) code against the cleared state answers Flag already deleted
and leaves the state cleared. -/
theorem C2_flag_clear_irreversible (secret : String) (codes : List String)
    (fs : SandboxFS) (hs : phpEmpty secret = false) (h : fs.flagPresent = false) :
    (runCalls secret codes fs).flagPresent = false
      ∧ adminHandler secret secret fs = ("Flag already deleted.", fs) := by
  constructor
  · induction codes generalizing fs with
    | nil => exact h
    | cons c cs ih =>
      exact ih (adminHandler c secret fs).2 (adminHandler_preserves_absent c secret fs h)
  · obtain ⟨b, u⟩ := fs
    simp only at h
    subst h
    simp [adminHandler, hs]

/-- C2 witness: after the flag is gone, a repeat of the correct code and a
wrong code both leave it gone, and the correct code answers Flag already
deleted. -/
theorem C2_flag_clear_irreversible_witness :
    (runCalls "abc" ["abc", ""] ⟨false, true⟩).flagPresent = false
      ∧ adminHandler "abc" "abc" ⟨false, true⟩ = ("Flag already deleted.", ⟨false, true⟩) :=
  C2_flag_clear_irreversible "abc" ["abc", ""] ⟨false, true⟩ (by decide) rfl

/-- C3 counterexample: over the full range `0..32767` of bash `$RANDOM`, the
hidden-file profile (3) is selected for 10922 of the 32768 draws, which is
not the probability 1/3 the claim states. -/
theorem C3_not_exactly_uniform :
    ((profileCount 3 32768 : ℚ) / 32768) ≠ 1 / 3 := by
  rw [profileCount_32768.2.2]
  norm_num

/-- C3 amended: profile selection is the deterministic function
`1 + r mod 3` of the `$RANDOM` draw `r`; over the full range `0..32767`,
profiles 1 and 2 are each selected for 10923 draws and profile 3 for 10922 —
within one draw of uniform, but not exactly 1/3 each. -/
theorem C3_near_uniform_selection :
    profileCount 1 32768 = 10923 ∧ profileCount 2 32768 = 10923
      ∧ profileCount 3 32768 = 10922
      ∧ ∀ r, 1 ≤ PROFILE r ∧ PROFILE r ≤ 3 := by
  refine ⟨profileCount_32768.1, profileCount_32768.2.1, profileCount_32768.2.2, ?_⟩
  intro r
  unfold PROFILE
  omega

/-- C4 counterexample: a run that draws the weak-credential profile (1)
starts only SSH — apache2, and with it the `admin.php` verification
endpoint, is not running in that sandbox. -/
theorem C4_no_endpoint_in_profile1 :
    PROFILE 0 = 1
      ∧ Service.apache2 ∉ (provision ⟨List.replicate 8 0, 0, 0, ""⟩).services := by
  refine ⟨rfl, ?_⟩
  have hserv : (provision ⟨List.replicate 8 0, 0, 0, ""⟩).services = [Service.ssh] := rfl
  rw [hserv]
  decide

/-- C4 amended: in the sql-injection and hidden-file profiles the target
sandbox runs apache2 and with it the `admin.php` verification endpoint, and
presenting the provisioned admin code there clears the flag marker whenever
the environment lets the unlink of the flag succeed; the weak-credential
profile starts no web endpoint. -/
theorem C4_endpoint_in_web_profiles (d : Draws) (hlen : d.adminBytes.length = 8)
    (h : PROFILE d.profileR = 2 ∨ PROFILE d.profileR = 3) :
    Service.apache2 ∈ (provision d).services
      ∧ ∀ fs : SandboxFS, fs.unlinkPermitted = true →
          (adminHandler (adminCode d.adminBytes) (adminCode d.adminBytes) fs).2.flagPresent
            = false := by
  constructor
  · unfold provision
    rcases h with h | h <;> rw [h] <;> simp [profileSetup, initSteps]
  · intro fs hu
    have hemp := adminCode_not_phpEmpty d.adminBytes hlen
    obtain ⟨b, u⟩ := fs
    simp only at hu
    subst hu
    cases b <;> simp [adminHandler, unlinkFlag, hemp]

/-- C4 amended witness: a concrete draw landing on the sql-injection
profile runs the endpoint; in a flag-present deletable state the correct
code clears the flag. -/
theorem C4_endpoint_in_web_profiles_witness :
    Service.apache2 ∈ (provision ⟨List.replicate 8 0, 1, 0, ""⟩).services
      ∧ ∀ fs : SandboxFS, fs.unlinkPermitted = true →
          (adminHandler (adminCode (⟨List.replicate 8 0, 1, 0, ""⟩ : Draws).adminBytes)
              (adminCode (⟨List.replicate 8 0, 1, 0, ""⟩ : Draws).adminBytes)
              fs).2.flagPresent = false :=
  C4_endpoint_in_web_profiles ⟨List.replicate 8 0, 1, 0, ""⟩ (by decide) (Or.inl rfl)

/-- C5 (modelled from the spec): `StartBattle` fails with `ValidationError`
exactly when the participant count is outside `[2,10]`; in particular it
fails for 1 and 11 participants and succeeds for 2 and 10. -/
theorem C5_startBattle_validation :
    (∀ ids : List Nat,
        startBattle ids = Except.error BattleError.validationError
          ↔ (ids.length < 2 ∨ 10 < ids.length))
      ∧ startBattle (List.range 1) = Except.error BattleError.validationError
      ∧ startBattle (List.range 11) = Except.error BattleError.validationError
      ∧ startBattle (List.range 2) = Except.ok 0
      ∧ startBattle (List.range 10) = Except.ok 0 := by
  refine ⟨?_, rfl, rfl, rfl, rfl⟩
  intro ids
  unfold startBattle
  split_ifs with hcond
  · exact iff_of_true rfl hcond
  · exact iff_of_false (by simp) hcond

/-- C6 counterexample: with inserts for participants 1, 2, 1 in that order,
the ids carried by the rows of participant 1 are `[1, 3]`, not the gapless
sequence `[1, 2]` the claim requires — the schema stores only the global
`BIGSERIAL` id, no per-participant sequence number. -/
theorem C6_gap_in_participant_ids :
    participantIds
        (buildLog [⟨1, "a", "", true⟩, ⟨2, "b", "", true⟩, ⟨1, "c", "", true⟩]) 1
      ≠ List.range' 1
          (participantIds
            (buildLog [⟨1, "a", "", true⟩, ⟨2, "b", "", true⟩, ⟨1, "c", "", true⟩])
            1).length := by
  decide

/-- C6 amended: the only stored ordering number is the global serial id;
restricted to one participant it is strictly increasing in insertion order,
but it may have gaps, and no per-participant sequence number equal to
prior-count-plus-one is stored. -/
theorem C6_participant_ids_strictly_increasing (ops : List LogOp) (p : Nat) :
    List.Pairwise (· < ·) (participantIds (buildLog ops) p) :=
  (logInv_buildLog ops).2 p

/-- C7 (modelled from the spec): every coordinator event either leaves
`Match.status` unchanged or moves it along one of the edges
`lobby → ongoing → completed or aborted`, and the terminal statuses absorb
every event. -/
theorem C7_status_transitions :
    (∀ (s : MatchStatus) (e : CoordEvent),
        coordStep s e = s ∨ AllowedEdge s (coordStep s e))
      ∧ (∀ e, coordStep MatchStatus.completed e = MatchStatus.completed)
      ∧ (∀ e, coordStep MatchStatus.aborted e = MatchStatus.aborted) := by
  refine ⟨?_, ?_, ?_⟩
  · intro s e
    cases s <;> cases e <;> simp [coordStep, AllowedEdge]
  · intro e
    cases e <;> rfl
  · intro e
    cases e <;> rfl

/-- C8 (modelled from the spec): `RankingUpdater.Apply` is idempotent per
match — the per-match ranking-applied marker makes a second delivery of the
same outcome a no-op, so the final stats totals match a single
application. -/
theorem C8_ranking_apply_idempotent (m : Nat) (o : MatchOutcome) (s : RankState) :
    RankingUpdater.Apply m o (RankingUpdater.Apply m o s) = RankingUpdater.Apply m o s := by
  unfold RankingUpdater.Apply
  by_cases hm : m ∈ s.rankingApplied
  · simp [hm]
  · simp [hm]

/-- C9 counterexample: two distinct provisioning runs of the
weak-credential profile (differing in the password `$RANDOM` draw, 0 versus
8) bind the same privileged-account password `password` — dictionary
passwords are reused across runs. -/
theorem C9_password_reuse :
    (⟨List.replicate 8 0, 0, 0, ""⟩ : Draws) ≠ ⟨List.replicate 8 0, 0, 8, ""⟩
      ∧ PROFILE 0 = 1
      ∧ (provision ⟨List.replicate 8 0, 0, 0, ""⟩).rootPassword
          = (provision ⟨List.replicate 8 0, 0, 8, ""⟩).rootPassword
      ∧ (provision ⟨List.replicate 8 0, 0, 0, ""⟩).rootPassword = some "password" := by
  refine ⟨by decide, rfl, rfl, rfl⟩

/-- C9 amended: the admin code is a fresh injective function of the bytes
drawn per run — runs with different byte draws get different admin codes —
but the weak-credential password comes from a fixed eight-entry dictionary
and can coincide across distinct runs. -/
theorem C9_admin_code_fresh (bs1 bs2 : List Nat) (h1 : ∀ b ∈ bs1, b < 256)
    (h2 : ∀ b ∈ bs2, b < 256) (hne : bs1 ≠ bs2) :
    adminCode bs1 ≠ adminCode bs2 ∧ selectedPass 0 = selectedPass 8 :=
  ⟨fun heq => hne (adminCode_injOn bs1 bs2 h1 h2 heq), rfl⟩

/-- C9 amended witness: two concrete byte draws differing in the last byte
yield different admin codes. -/
theorem C9_admin_code_fresh_witness :
    adminCode [0, 0, 0, 0, 0, 0, 0, 0] ≠ adminCode [0, 0, 0, 0, 0, 0, 0, 1]
      ∧ selectedPass 0 = selectedPass 8 :=
  C9_admin_code_fresh [0, 0, 0, 0, 0, 0, 0, 0] [0, 0, 0, 0, 0, 0, 0, 1]
    (by decide) (by decide) (by decide)

/-- C10: before the profile `case` statement runs, initialization writes
`/flag.txt` with content `CAPTURE THIS FLAG` and mode 666; no profile branch
touches the flag, so every provisioned sandbox starts with the flag marker
present. -/
theorem C10_flag_initialized (d : Draws) :
    (initSteps (adminCode d.adminBytes) (PROFILE d.profileR) initialTarget).flag
        = some ("CAPTURE THIS FLAG", 666)
      ∧ (∀ (p : Nat) (s : TargetState), (profileSetup p d s).flag = s.flag)
      ∧ (provision d).flag = some ("CAPTURE THIS FLAG", 666) := by
  have hpres : ∀ (p : Nat) (s : TargetState), (profileSetup p d s).flag = s.flag := by
    intro p s
    unfold profileSetup
    split_ifs <;> rfl
  refine ⟨rfl, hpres, ?_⟩
  unfold provision
  rw [hpres]
  rfl

end Rawr
